import Mathlib

/-
  Shallow embedding of src/recorder.py (TwitchRecorder).

  Pure Lean models of the functions the claims concern:
    is_live, get_access_token, get_stream_url, stop_recording,
    the post-processing step, one poll-loop cycle of main, the
    shutdown sequence of the finally block, and the check_interval
    defaulting logic.

  External effects (HTTP responses, subprocess behaviour, streamlink
  results) are passed in as explicit data so that each code path of the
  source is a branch of a total Lean function.
-/

namespace TwitchRecorder

/-! ## LiveStatusSource: is_live (recorder.py lines 195-228)

The Python function issues one GET and returns a tuple:
  (True, title)          for HTTP 200 whose parsed body has a non-empty
                         data list (title = first entry field title),
  (False, None)          for HTTP 200 with an empty data list,
  ("AUTH_FAILURE", None) when raise_for_status raised with code 401/403,
  (None, None)           for any other HTTP error status, any
                         RequestException (network failure), any
                         JSONDecodeError (malformed body), or any other
                         exception.
We model the tuple tags as an inductive. -/

/-- One entry of the parsed data list; the source reads only the
title field, via a lookup that can be absent. -/
structure StreamEntry where
  title : Option String
deriving DecidableEq

/-- The outcome of the HTTP exchange as seen by is_live: either a
response with a status code and a parsed body (none when the body is
malformed JSON), or a network-level request failure. -/
inductive HttpOutcome where
  | response (status : Nat) (body : Option (List StreamEntry))
  | requestError
deriving DecidableEq

/-- The four result tags of is_live. live t is the tuple (True, t);
offline is (False, None); authFailure is ("AUTH_FAILURE", None);
unknown is (None, None). -/
inductive LiveResult where
  | live (title : Option String)
  | offline
  | authFailure
  | unknown
deriving DecidableEq

/-- The call raise_for_status raises exactly for 4xx and 5xx codes. -/
def isHttpErrorStatus (s : Nat) : Bool :=
  decide (400 ≤ s) && decide (s < 600)

/-- Model of is_live: raise_for_status first (so an error status is
classified before the body is parsed), then the JSON body, then the
data list. -/
def is_live (resp : HttpOutcome) : LiveResult :=
  match resp with
  | .requestError => .unknown
  | .response status body =>
    if isHttpErrorStatus status then
      if status = 401 ∨ status = 403 then .authFailure else .unknown
    else
      match body with
      | none => .unknown
      | some [] => .offline
      | some (e :: _) => .live e.title

/-! ## TokenGate: get_access_token (recorder.py lines 166-192)

The Python function POSTs the credentials and returns
response.json().get(access_token) on success; every failure path
(HTTPError of any status, RequestException, JSONDecodeError, any other
exception) returns None. The body model is
  none                 malformed JSON,
  some none            valid JSON without the token field,
  some (some tok)      valid JSON carrying the token. -/

/-- The outcome of the token-exchange HTTP call. -/
inductive TokenHttpOutcome where
  | response (status : Nat) (body : Option (Option String))
  | requestError
deriving DecidableEq

/-- Model of get_access_token. -/
def get_access_token (resp : TokenHttpOutcome) : Option String :=
  match resp with
  | .requestError => none
  | .response status body =>
    if isHttpErrorStatus status then none
    else
      match body with
      | none => none
      | some tokenField => tokenField

/-! ## StreamResolver: get_stream_url (recorder.py lines 231-260)

streamlink.streams returns a mapping from quality label to stream; we
model it as an association list in insertion order (keys unique in the
Python dict). The source: empty mapping gives None; else the configured
quality if present; else the label best if present; else
next(iter(streams.values()), None), i.e. the first value. A resolver
exception gives None. -/

/-- Dict lookup: the value of the first pair whose key matches. -/
def lookupQ (streams : List (String × String)) (q : String) : Option String :=
  (streams.find? (fun p => p.1 = q)).map (fun p => p.2)

/-- Model of the body of get_stream_url over the quality mapping. -/
def get_stream_url (streams : List (String × String)) (preferred : String) :
    Option String :=
  if streams.isEmpty then none
  else
    match lookupQ streams preferred with
    | some url => some url
    | none =>
      match lookupQ streams "best" with
      | some url => some url
      | none => streams.head?.map (fun p => p.2)

/-- The resolver boundary: a streamlink exception is caught and
converted to None. -/
inductive ResolveOutcome where
  | ok (streams : List (String × String))
  | resolverError
deriving DecidableEq

/-- get_stream_url including the exception path. -/
def get_stream_url_total (r : ResolveOutcome) (preferred : String) :
    Option String :=
  match r with
  | .resolverError => none
  | .ok streams => get_stream_url streams preferred

/-! ## check_interval defaulting (recorder.py lines 513-516, 598-599) -/

/-- The default DEFAULT_CHECK_INTERVAL is the string 60, read as an int. -/
def DEFAULT_CHECK_INTERVAL : Int := 60

/-- The interval actually used by time.sleep: a configured value that is
not positive is replaced by the default before the loop starts. -/
def effective_check_interval (configured : Int) : Int :=
  if configured ≤ 0 then DEFAULT_CHECK_INTERVAL else configured

/-! ## RecordingProcess: stop_recording (recorder.py lines 323-364)

stop_recording calls process.terminate(), then
process.communicate(timeout=10); a TimeoutExpired there leads to
process.kill() and a final unbounded communicate(). A
ProcessLookupError from terminate (the process exited and was reaped
before stop) is caught: only a warning is logged, nothing is raised
and no kill is attempted. We model the relevant behaviour of the
subprocess as data. -/

/-- Observable behaviour of the ffmpeg subprocess at stop time:
whether it already exited before stop was invoked (so terminate raises
ProcessLookupError), how long after SIGTERM it exits (none when it
ignores the signal), and how long the kill-then-reap takes after
SIGKILL. Times are in seconds. -/
structure ProcBehavior where
  exitedBeforeStop : Bool
  termExitTime : Option Nat
  killReapTime : Nat
deriving DecidableEq

/-- The grace period of the source: communicate(timeout=10). -/
def gracePeriod : Nat := 10

/-- The three stop paths, distinguished in the source by the branch
taken (and the log line emitted): the graceful-communicate path, the
TimeoutExpired-kill path, and the ProcessLookupError path. -/
inductive StopOutcome where
  | graceful
  | forced
  | alreadyExited
deriving DecidableEq

/-- Signals the stop path delivers to the process. -/
inductive Sig where
  | sigterm
  | sigkill
deriving DecidableEq

/-- Model of stop_recording: which path is taken and how many seconds
elapse in that path. -/
def stop_recording (p : ProcBehavior) : StopOutcome × Nat :=
  if p.exitedBeforeStop then (.alreadyExited, 0)
  else
    match p.termExitTime with
    | some t =>
      if t ≤ gracePeriod then (.graceful, t)
      else (.forced, gracePeriod + p.killReapTime)
    | none => (.forced, gracePeriod + p.killReapTime)

/-- The signals delivered by stop_recording: none when the lookup on
terminate fails, SIGTERM alone on the graceful path, SIGTERM then
SIGKILL on the escalation path. -/
def stop_signals (p : ProcBehavior) : List Sig :=
  if p.exitedBeforeStop then []
  else
    match p.termExitTime with
    | some t => if t ≤ gracePeriod then [.sigterm] else [.sigterm, .sigkill]
    | none => [.sigterm, .sigkill]

/-! ## PostProcessor (recorder.py lines 573-596)

After a stop the loop reads post_processing_command, strips it, and if
both it and the output path are truthy runs the substituted command
through subprocess.run with timeout=300. TimeoutExpired and every
other exception are caught inside the loop body. -/

/-- Python str.strip on the character list: drop whitespace from both
ends. Used to model config.get(post_processing_command).strip(). -/
def stripChars (cs : List Char) : List Char :=
  ((cs.dropWhile Char.isWhitespace).reverse.dropWhile Char.isWhitespace).reverse

/-- Python str.strip at the String level. -/
def pyStrip (s : String) : String := ⟨stripChars s.data⟩

/-- Timeout of the subprocess.run call in the source. -/
def postProcessTimeout : Nat := 300

/-- Behaviour of the post-processing shell command: its wall-clock
duration in seconds and its exit code. -/
structure CmdBehavior where
  duration : Nat
  returncode : Int
deriving DecidableEq

/-- How the completed (or cancelled) run is classified by the source:
TimeoutExpired when the duration exceeds the timeout, else success on
return code 0, else the non-zero-exit error branch. -/
inductive PostOutcome where
  | success
  | nonZeroExit (code : Int)
  | timedOut
deriving DecidableEq

/-- Classification of one subprocess.run call with timeout=300. -/
def runPostOutcome (beh : CmdBehavior) : PostOutcome :=
  if postProcessTimeout < beh.duration then .timedOut
  else if beh.returncode = 0 then .success
  else .nonZeroExit beh.returncode

/-! ## RecordingSupervisor: one cycle of the main loop
(recorder.py lines 529-599) and the shutdown sequence (601-611)

The per-user dict entry built by start_recording; of its fields the
loop reads username and output_path. The processes dict is modelled as
an association list in insertion order with unique keys. -/

/-- The fields of the start_recording result dict that the loop uses. -/
structure RecInfo where
  username : String
  output_path : String
deriving DecidableEq

/-- The processes dict of main. -/
abbrev ProcMap := List (String × RecInfo)

/-- The keys of the processes dict. -/
def keys (m : ProcMap) : List String := m.map (fun p => p.1)

/-- Dict lookup in the processes map. -/
def lookupP (m : ProcMap) (u : String) : Option RecInfo :=
  (m.find? (fun p => p.1 = u)).map (fun p => p.2)

/-- Everything one cycle (or the shutdown sequence) does to the outside
world, in order. The action vocabulary includes file deletion so that
its absence is expressible: the source never removes a recording
file. -/
inductive Action where
  | startRec (u : String)
  | stopRec (u : String) (info : RecInfo)
  | postProcess (u : String) (path : String) (outcome : PostOutcome)
  | deleteFile (path : String)
deriving DecidableEq

/-- The dict current_live_user_titles: the users whose is_live result this cycle
was the tuple (True, title), in users order. AUTH_FAILURE entries are
skipped by the continue, unknown entries by the elif chain; neither is
added. -/
def currentLive (users : List String) (status : String → LiveResult) :
    List (String × Option String) :=
  users.filterMap (fun u =>
    match status u with
    | .live t => some (u, t)
    | _ => none)

/-- The start loop: for each pending (user, title), re-check membership
in processes, call start_recording (modelled by start_rec, none on
failure), and insert the new entry at the end on success. -/
def applyStarts (toStart : List (String × Option String))
    (start_rec : String → Option RecInfo)
    (m : ProcMap) (acts : List Action) : ProcMap × List Action :=
  match toStart with
  | [] => (m, acts)
  | (u, _) :: rest =>
    if u ∈ keys m then applyStarts rest start_rec m acts
    else
      match start_rec u with
      | some info =>
        applyStarts rest start_rec (m ++ [(u, info)]) (acts ++ [.startRec u])
      | none => applyStarts rest start_rec m acts

/-- The post-processing step run after one stop: skipped when the
stripped command template or the output path is falsy, otherwise one
subprocess.run whose outcome is classified by runPostOutcome. No
branch touches the recording file. -/
def postStep (postCmd : String) (beh : CmdBehavior) (u : String)
    (info : RecInfo) : List Action :=
  if pyStrip postCmd = "" ∨ info.output_path = "" then []
  else [.postProcess u info.output_path (runPostOutcome beh)]

/-- The stop loop: for each user to stop, re-check membership, pop the
entry from the dict, stop its process, then post-process. -/
def applyStops (toStop : List String) (postCmd : String)
    (beh : CmdBehavior) (m : ProcMap) (acts : List Action) :
    ProcMap × List Action :=
  match toStop with
  | [] => (m, acts)
  | u :: rest =>
    match lookupP m u with
    | none => applyStops rest postCmd beh m acts
    | some info =>
      applyStops rest postCmd beh (m.eraseP (fun p => p.1 = u))
        (acts ++ [.stopRec u info] ++ postStep postCmd beh u info)

/-- One iteration of the while True loop of main: query every user,
build the confirmed-live set, diff it against the processes dict, run
the start loop then the stop loop. status gives the is_live result of
each user this cycle, start_rec the result of start_recording, beh the
behaviour of the post-processing command. -/
def cycle (users : List String) (status : String → LiveResult)
    (start_rec : String → Option RecInfo) (postCmd : String)
    (beh : CmdBehavior) (m : ProcMap) : ProcMap × List Action :=
  let live := currentLive users status
  let toStart := live.filter (fun p => p.1 ∉ keys m)
  let toStop := (keys m).filter (fun u => u ∉ live.map (fun p => p.1))
  let ma := applyStarts toStart start_rec m []
  applyStops toStop postCmd beh ma.1 ma.2

/-- The finally block of main: stop every entry still in the processes
dict, in order. It calls stop_recording only; no post-processing
happens here. -/
def shutdown (m : ProcMap) : List Action :=
  m.map (fun p => .stopRec p.1 p.2)

/-- Whether an action is a post-processing run. -/
def isPostAction : Action → Bool
  | .postProcess _ _ _ => true
  | _ => false

/-! ## Helper lemmas -/

/-- A successful quality lookup returns a value stored in the mapping. -/
theorem lookupQ_exists_key {streams : List (String × String)} {q u : String}
    (h : lookupQ streams q = some u) : ∃ k, (k, u) ∈ streams := by
  unfold lookupQ at h
  cases hf : streams.find? (fun p => p.1 = q) with
  | none => rw [hf] at h; exact absurd h (by simp)
  | some p =>
    rw [hf] at h
    simp only [Option.map_some'] at h
    injection h with h2
    have hm := List.mem_of_find?_eq_some hf
    refine ⟨p.1, ?_⟩
    rw [← h2]
    exact hm

/-- Keys of an appended map. -/
theorem keys_append (m1 m2 : ProcMap) : keys (m1 ++ m2) = keys m1 ++ keys m2 :=
  List.map_append _ _ _

/-- The start loop preserves distinctness of the dict keys: an entry is
inserted only after the membership re-check fails. -/
theorem applyStarts_keys_nodup (toStart : List (String × Option String))
    (sr : String → Option RecInfo) (m : ProcMap) (acts : List Action)
    (h : (keys m).Nodup) :
    (keys (applyStarts toStart sr m acts).1).Nodup := by
  induction toStart generalizing m acts with
  | nil => exact h
  | cons p rest ih =>
    obtain ⟨u, t⟩ := p
    simp only [applyStarts]
    by_cases hu : u ∈ keys m
    · rw [if_pos hu]
      exact ih m acts h
    · rw [if_neg hu]
      cases hsr : sr u with
      | none => exact ih m acts h
      | some info =>
        apply ih
        rw [keys_append]
        have hd : List.Disjoint (keys m) [u] := by
          intro b hb hbu
          rw [List.mem_singleton] at hbu
          subst hbu
          exact hu hb
        exact List.Nodup.append h (List.nodup_singleton u) hd

/-- Popping an entry preserves distinctness of the dict keys. -/
theorem keys_eraseP_nodup (m : ProcMap) (q : String × RecInfo → Bool)
    (h : (keys m).Nodup) : (keys (m.eraseP q)).Nodup := by
  have hs : List.Sublist (m.eraseP q) m := List.eraseP_sublist m
  have hs2 := List.Sublist.map (fun p : String × RecInfo => p.1) hs
  exact List.Nodup.sublist hs2 h

/-- The stop loop preserves distinctness of the dict keys. -/
theorem applyStops_keys_nodup (toStop : List String) (postCmd : String)
    (beh : CmdBehavior) (m : ProcMap) (acts : List Action)
    (h : (keys m).Nodup) :
    (keys (applyStops toStop postCmd beh m acts).1).Nodup := by
  induction toStop generalizing m acts with
  | nil => exact h
  | cons u rest ih =>
    simp only [applyStops]
    cases hl : lookupP m u with
    | none => exact ih m acts h
    | some info => exact ih _ _ (keys_eraseP_nodup m _ h)

/-- The only action the post-processing step can emit. -/
theorem postStep_mem (postCmd : String) (beh : CmdBehavior) (u : String)
    (info : RecInfo) (a : Action) (h : a ∈ postStep postCmd beh u info) :
    a = .postProcess u info.output_path (runPostOutcome beh) := by
  unfold postStep at h
  split at h
  · exact absurd h (by simp)
  · rw [List.mem_singleton] at h
    exact h

/-- Origin of the actions emitted by the start loop: everything beyond
the accumulator is a start of a pending user that was not yet in the
dict when the loop reached it (hence not in the initial dict either,
since the loop only adds entries). -/
theorem applyStarts_acts_mem (toStart : List (String × Option String))
    (sr : String → Option RecInfo) (m : ProcMap) (acts : List Action)
    (a : Action) (h : a ∈ (applyStarts toStart sr m acts).2) :
    a ∈ acts ∨
      ∃ u, a = .startRec u ∧ u ∈ toStart.map (fun p => p.1) ∧ u ∉ keys m := by
  induction toStart generalizing m acts with
  | nil => exact Or.inl h
  | cons p rest ih =>
    obtain ⟨u, t⟩ := p
    simp only [applyStarts] at h
    by_cases hu : u ∈ keys m
    · rw [if_pos hu] at h
      rcases ih m acts h with h1 | ⟨v, hv, hv2, hv3⟩
      · exact Or.inl h1
      · exact Or.inr ⟨v, hv, by simp [hv2], hv3⟩
    · rw [if_neg hu] at h
      cases hsr : sr u with
      | none =>
        rw [hsr] at h
        rcases ih m acts h with h1 | ⟨v, hv, hv2, hv3⟩
        · exact Or.inl h1
        · exact Or.inr ⟨v, hv, by simp [hv2], hv3⟩
      | some info =>
        rw [hsr] at h
        rcases ih _ _ h with h1 | ⟨v, hv, hv2, hv3⟩
        · rcases List.mem_append.mp h1 with h2 | h2
          · exact Or.inl h2
          · rw [List.mem_singleton] at h2
            exact Or.inr ⟨u, h2, by simp, hu⟩
        · refine Or.inr ⟨v, hv, by simp [hv2], ?_⟩
          intro hvm
          exact hv3 (by rw [keys_append]; exact List.mem_append_left _ hvm)

/-- Origin of the actions emitted by the stop loop: everything beyond
the accumulator is a stop or a post-processing report. -/
theorem applyStops_acts_mem (toStop : List String) (postCmd : String)
    (beh : CmdBehavior) (m : ProcMap) (acts : List Action)
    (a : Action) (h : a ∈ (applyStops toStop postCmd beh m acts).2) :
    a ∈ acts ∨ (∃ u info, a = .stopRec u info) ∨
      (∃ u path oc, a = .postProcess u path oc) := by
  induction toStop generalizing m acts with
  | nil => exact Or.inl h
  | cons u rest ih =>
    simp only [applyStops] at h
    cases hl : lookupP m u with
    | none =>
      rw [hl] at h
      exact ih m acts h
    | some info =>
      rw [hl] at h
      rcases ih _ _ h with h1 | h2 | h3
      · rcases List.mem_append.mp h1 with h2 | h3
        · rcases List.mem_append.mp h2 with h4 | h5
          · exact Or.inl h4
          · rw [List.mem_singleton] at h5
            exact Or.inr (Or.inl ⟨u, info, h5⟩)
        · exact Or.inr (Or.inr
            ⟨u, info.output_path, runPostOutcome beh, postStep_mem _ _ _ _ _ h3⟩)
      · exact Or.inr (Or.inl h2)
      · exact Or.inr (Or.inr h3)

/-- The processes dict produced by the stop loop does not depend on the
behaviour of the post-processing command or on the accumulator. -/
theorem applyStops_map_indep (toStop : List String) (postCmd : String)
    (beh beh2 : CmdBehavior) (m : ProcMap) (acts acts2 : List Action) :
    (applyStops toStop postCmd beh m acts).1 =
      (applyStops toStop postCmd beh2 m acts2).1 := by
  induction toStop generalizing m acts acts2 with
  | nil => rfl
  | cons u rest ih =>
    simp only [applyStops]
    cases hl : lookupP m u with
    | none => exact ih m acts acts2
    | some info => exact ih _ _ _

/-- The processes dict after a cycle does not depend on the behaviour
of the post-processing command. -/
theorem cycle_map_indep (users : List String) (status : String → LiveResult)
    (sr : String → Option RecInfo) (postCmd : String) (beh beh2 : CmdBehavior)
    (m : ProcMap) :
    (cycle users status sr postCmd beh m).1 =
      (cycle users status sr postCmd beh2 m).1 := by
  simp only [cycle]
  exact applyStops_map_indep _ _ _ _ _ _ _

/-! ## Claim theorems -/

/-- Claim C1 (code bug). The claim states that a TransientError or
AuthError status for a user currently in the active-recording map never
produces a stop action in that cycle. The code does the opposite: a
user whose check returns AUTH_FAILURE (or the unknown tuple) is absent
from current_live_user_titles, so the stop diff selects it and the
cycle stops its recording. Concretely: one tracked user alice with an
active recording whose status check returns AuthError ends the cycle
with the active map empty and a stop action for alice. -/
theorem cycle_authFailure_stops_recording :
    cycle ["alice"] (fun _ => .authFailure) (fun _ => none) "" ⟨0, 0⟩
      [("alice", ⟨"alice", "out.mp4"⟩)] =
      ([], [.stopRec "alice" ⟨"alice", "out.mp4"⟩]) := by
  rfl

/-- Claim C2. At most one active-recording entry per username: the
cycle preserves distinctness of the processes-dict keys, and every
start action it emits is for a user confirmed live this cycle that was
not in the dict at the start of the cycle, so no duplicate starts
occur across consecutive cycles. -/
theorem cycle_no_duplicate_starts (users : List String)
    (status : String → LiveResult) (sr : String → Option RecInfo)
    (postCmd : String) (beh : CmdBehavior) (m : ProcMap)
    (hm : (keys m).Nodup) (u : String) :
    (keys (cycle users status sr postCmd beh m).1).Nodup ∧
    (Action.startRec u ∈ (cycle users status sr postCmd beh m).2 →
      u ∈ (currentLive users status).map (fun p => p.1) ∧ u ∉ keys m) := by
  constructor
  · simp only [cycle]
    exact applyStops_keys_nodup _ _ _ _ _ (applyStarts_keys_nodup _ _ _ _ hm)
  · intro h
    simp only [cycle] at h
    rcases applyStops_acts_mem _ _ _ _ _ _ h with
      h1 | ⟨v, info, hv⟩ | ⟨v, pth, oc, hv⟩
    · rcases applyStarts_acts_mem _ _ _ _ _ h1 with h2 | ⟨v, hv, hv2, hv3⟩
      · exact absurd h2 (List.not_mem_nil _)
      · injection hv with huv
        subst huv
        refine ⟨?_, hv3⟩
        rcases List.mem_map.mp hv2 with ⟨p, hp, hpu⟩
        exact List.mem_map.mpr ⟨p, (List.mem_filter.mp hp).1, hpu⟩
    · exact absurd hv (by simp)
    · exact absurd hv (by simp)

/-- Witness for C2 at a concrete input: empty initial dict, one live
user. -/
theorem cycle_no_duplicate_starts_witness :
    (keys ([] : ProcMap)).Nodup ∧
    (keys (cycle ["alice"] (fun _ => .live (some "T"))
      (fun v => some ⟨v, "p.mp4"⟩) "" ⟨0, 0⟩ []).1).Nodup ∧
    (Action.startRec "alice" ∈ (cycle ["alice"] (fun _ => .live (some "T"))
      (fun v => some ⟨v, "p.mp4"⟩) "" ⟨0, 0⟩ []).2 →
      "alice" ∈ (currentLive ["alice"]
        (fun _ => .live (some "T"))).map (fun p => p.1) ∧
      "alice" ∉ keys ([] : ProcMap)) :=
  ⟨List.nodup_nil,
   (cycle_no_duplicate_starts ["alice"] (fun _ => .live (some "T"))
     (fun v => some ⟨v, "p.mp4"⟩) "" ⟨0, 0⟩ [] List.nodup_nil "alice").1,
   (cycle_no_duplicate_starts ["alice"] (fun _ => .live (some "T"))
     (fun v => some ⟨v, "p.mp4"⟩) "" ⟨0, 0⟩ [] List.nodup_nil "alice").2⟩

/-- Claim C3. The status check classifies exactly as: 200 with a
non-empty data list is live with the title of the first entry; 200 with
an empty list is offline; 401 and 403 are the auth-failure tag; any
other HTTP error status, malformed body, or network failure is the
unknown tag. -/
theorem is_live_classification (e : StreamEntry) (es : List StreamEntry)
    (b : Option (List StreamEntry)) (s : Nat) :
    is_live (.response 200 (some (e :: es))) = .live e.title ∧
    is_live (.response 200 (some [])) = .offline ∧
    is_live (.response 401 b) = .authFailure ∧
    is_live (.response 403 b) = .authFailure ∧
    (isHttpErrorStatus s = true → s ≠ 401 → s ≠ 403 →
      is_live (.response s b) = .unknown) ∧
    is_live (.response 200 none) = .unknown ∧
    is_live .requestError = .unknown := by
  refine ⟨rfl, rfl, rfl, rfl, ?_, rfl, rfl⟩
  intro hs h1 h2
  simp [is_live, hs, h1, h2]

/-- Witness for C3 at concrete inputs: a 500 error is unknown, a 200
with one entry is live with its title. -/
theorem is_live_classification_witness :
    isHttpErrorStatus 500 = true ∧ 500 ≠ 401 ∧ 500 ≠ 403 ∧
    is_live (.response 500 none) = .unknown ∧
    is_live (.response 200 (some [⟨some "t"⟩])) = .live (some "t") :=
  ⟨by decide, by decide, by decide,
   (is_live_classification ⟨some "t"⟩ [] none 500).2.2.2.2.1
     (by decide) (by decide) (by decide),
   (is_live_classification ⟨some "t"⟩ [] none 500).1⟩

/-- Claim C4. Stream-URL fallback: exact match on the preferred quality
first, else the variant labeled best, else some member of the mapping,
and None exactly when the mapping is empty. -/
theorem get_stream_url_fallback (streams : List (String × String))
    (preferred : String) :
    (∀ u, lookupQ streams preferred = some u →
      get_stream_url streams preferred = some u) ∧
    (lookupQ streams preferred = none → ∀ u, lookupQ streams "best" = some u →
      get_stream_url streams preferred = some u) ∧
    (streams ≠ [] → ∃ q u, (q, u) ∈ streams ∧
      get_stream_url streams preferred = some u) ∧
    (get_stream_url streams preferred = none ↔ streams = []) := by
  cases streams with
  | nil =>
    refine ⟨?_, ?_, ?_, ?_⟩
    · intro u h; simp [lookupQ] at h
    · intro _ u h; simp [lookupQ] at h
    · intro h; exact absurd rfl h
    · simp [get_stream_url]
  | cons x rest =>
    refine ⟨?_, ?_, ?_, ?_⟩
    · intro u h
      simp [get_stream_url, h]
    · intro h u hb
      simp [get_stream_url, h, hb]
    · intro _
      rcases h1 : lookupQ (x :: rest) preferred with _ | u
      · rcases h2 : lookupQ (x :: rest) "best" with _ | v
        · exact ⟨x.1, x.2, List.mem_cons_self x rest,
            by simp [get_stream_url, h1, h2]⟩
        · obtain ⟨k, hk⟩ := lookupQ_exists_key h2
          exact ⟨k, v, hk, by simp [get_stream_url, h1, h2]⟩
      · obtain ⟨k, hk⟩ := lookupQ_exists_key h1
        exact ⟨k, u, hk, by simp [get_stream_url, h1]⟩
    · constructor
      · intro h
        exfalso
        rcases h1 : lookupQ (x :: rest) preferred with _ | u
        · rcases h2 : lookupQ (x :: rest) "best" with _ | v
          · simp [get_stream_url, h1, h2] at h
          · simp [get_stream_url, h1, h2] at h
        · simp [get_stream_url, h1] at h
      · intro h
        exact absurd h (by simp)

/-- Witness for C4: preferred 720p absent from a mapping holding 480p
and best, so the best variant is returned (the scenario of the spec). -/
theorem get_stream_url_fallback_witness :
    lookupQ [("480p", "u4"), ("best", "ub")] "720p" = none ∧
    lookupQ [("480p", "u4"), ("best", "ub")] "best" = some "ub" ∧
    get_stream_url [("480p", "u4"), ("best", "ub")] "720p" = some "ub" :=
  ⟨by decide, by decide,
   (get_stream_url_fallback [("480p", "u4"), ("best", "ub")] "720p").2.1
     (by decide) "ub" (by decide)⟩

/-- Counterexample to claim C5. The claim states that token acquisition
distinguishes credential failure from network failure in its returned
value. The code returns None on both: a 401 HTTP response and a
network-level request failure yield the same result, so the caller
cannot tell them apart from the returned value. -/
theorem get_access_token_not_distinguishing :
    get_access_token (.response 401 (some none)) = none ∧
    get_access_token .requestError = none ∧
    get_access_token (.response 401 (some none)) =
      get_access_token .requestError :=
  ⟨rfl, rfl, rfl⟩

/-- Claim C5 as amended. Token acquisition collapses every failure mode
to None: any HTTP error status, a malformed body, a missing token
field, and a network failure all yield None (the distinction is only
logged); success returns the token field. -/
theorem get_access_token_failures_none (s : Nat) (b : Option (Option String))
    (tok : String) :
    (isHttpErrorStatus s = true → get_access_token (.response s b) = none) ∧
    get_access_token (.response 200 none) = none ∧
    get_access_token (.response 200 (some none)) = none ∧
    get_access_token .requestError = none ∧
    get_access_token (.response 200 (some (some tok))) = some tok := by
  refine ⟨?_, rfl, rfl, rfl, rfl⟩
  intro h
  simp [get_access_token, h]

/-- Witness for amended C5 at concrete inputs. -/
theorem get_access_token_failures_none_witness :
    isHttpErrorStatus 500 = true ∧
    get_access_token (.response 500 none) = none ∧
    get_access_token (.response 200 (some (some "tok"))) = some "tok" :=
  ⟨by decide,
   (get_access_token_failures_none 500 none "tok").1 (by decide),
   (get_access_token_failures_none 500 none "tok").2.2.2.2⟩

/-- Claim C6. Stopping a recording takes at most the 10-second grace
period plus the kill-and-reap epsilon; the first signal delivered is
always the graceful one, and a process that ignores it is forcibly
killed (SIGTERM then SIGKILL). -/
theorem stop_recording_bounded (p : ProcBehavior) :
    (stop_recording p).2 ≤ gracePeriod + p.killReapTime ∧
    (p.exitedBeforeStop = false → (stop_signals p).head? = some .sigterm) ∧
    (p.exitedBeforeStop = false → p.termExitTime = none →
      (stop_recording p).1 = .forced ∧
      stop_signals p = [.sigterm, .sigkill]) := by
  obtain ⟨ex, te, kr⟩ := p
  cases ex with
  | true =>
    refine ⟨by simp [stop_recording], ?_, ?_⟩
    · intro h; exact absurd h (by simp)
    · intro h; exact absurd h (by simp)
  | false =>
    cases te with
    | none =>
      exact ⟨by simp [stop_recording], fun _ => rfl, fun _ _ => ⟨rfl, rfl⟩⟩
    | some t =>
      refine ⟨?_, ?_, ?_⟩
      · by_cases ht : t ≤ gracePeriod
        · simp only [stop_recording, if_pos ht]
          exact le_trans ht (Nat.le_add_right _ _)
        · simp [stop_recording, ht]
      · intro _
        by_cases ht : t ≤ gracePeriod <;> simp [stop_signals, ht]
      · intro _ h
        exact absurd h (by simp)

/-- Witness for C6: a process that ignores SIGTERM, with a one-second
kill-and-reap, is forcibly killed within the bound. -/
theorem stop_recording_bounded_witness :
    (stop_recording ⟨false, none, 1⟩).2 ≤ gracePeriod + 1 ∧
    (stop_signals ⟨false, none, 1⟩).head? = some .sigterm ∧
    (stop_recording ⟨false, none, 1⟩).1 = .forced ∧
    stop_signals ⟨false, none, 1⟩ = [.sigterm, .sigkill] :=
  ⟨(stop_recording_bounded ⟨false, none, 1⟩).1,
   (stop_recording_bounded ⟨false, none, 1⟩).2.1 rfl,
   ((stop_recording_bounded ⟨false, none, 1⟩).2.2 rfl rfl).1,
   ((stop_recording_bounded ⟨false, none, 1⟩).2.2 rfl rfl).2⟩

/-- Claim C7. Stopping a handle whose process already exited takes the
lookup-failure path: the outcome is the already-exited one, no time is
spent, no signal is delivered, and no error escapes (every stop path of
the model is a normal return). -/
theorem stop_recording_already_exited (p : ProcBehavior)
    (h : p.exitedBeforeStop = true) :
    stop_recording p = (.alreadyExited, 0) ∧ stop_signals p = [] := by
  unfold stop_recording stop_signals
  rw [if_pos h, if_pos h]
  exact ⟨rfl, rfl⟩

/-- Witness for C7 at a concrete already-exited process. -/
theorem stop_recording_already_exited_witness :
    stop_recording ⟨true, none, 0⟩ = (.alreadyExited, 0) ∧
    stop_signals ⟨true, none, 0⟩ = [] :=
  stop_recording_already_exited ⟨true, none, 0⟩ rfl

/-- Counterexample to claim C8. The claim states that shutdown stops
every remaining entry and runs post-processing for each. The finally
block of main only stops: with one active recording, the shutdown
sequence is exactly one stop action and holds no post-processing
action. -/
theorem shutdown_no_post_processing :
    shutdown [("alice", ⟨"alice", "out.mp4"⟩)] =
      [.stopRec "alice" ⟨"alice", "out.mp4"⟩] ∧
    (shutdown [("alice", ⟨"alice", "out.mp4"⟩)]).countP isPostAction = 0 :=
  ⟨rfl, rfl⟩

/-- Claim C8 as amended. On shutdown every entry remaining in the
active-recording map has its recording stopped before the process
exits, and no entry is skipped (one stop per entry); post-processing is
not run for these shutdown stops. -/
theorem shutdown_stops_all (m : ProcMap) (u : String) (info : RecInfo)
    (h : (u, info) ∈ m) :
    Action.stopRec u info ∈ shutdown m ∧
    (shutdown m).countP isPostAction = 0 ∧
    (shutdown m).length = m.length := by
  refine ⟨?_, ?_, by simp [shutdown]⟩
  · unfold shutdown
    exact List.mem_map.mpr ⟨(u, info), h, rfl⟩
  · rw [List.countP_eq_zero]
    intro a ha
    unfold shutdown at ha
    obtain ⟨q, hq, rfl⟩ := List.mem_map.mp ha
    simp [isPostAction]

/-- Witness for amended C8 at a concrete one-entry map. -/
theorem shutdown_stops_all_witness :
    (("alice", (⟨"alice", "o.mp4"⟩ : RecInfo)) ∈
      ([("alice", ⟨"alice", "o.mp4"⟩)] : ProcMap)) ∧
    Action.stopRec "alice" ⟨"alice", "o.mp4"⟩ ∈
      shutdown [("alice", ⟨"alice", "o.mp4"⟩)] ∧
    (shutdown [("alice", ⟨"alice", "o.mp4"⟩)]).countP isPostAction = 0 :=
  ⟨by simp,
   (shutdown_stops_all [("alice", ⟨"alice", "o.mp4"⟩)] "alice"
     ⟨"alice", "o.mp4"⟩ (by simp)).1,
   (shutdown_stops_all [("alice", ⟨"alice", "o.mp4"⟩)] "alice"
     ⟨"alice", "o.mp4"⟩ (by simp)).2.1⟩

/-- Claim C9. A post-processing command that runs past the 300-second
timeout is classified TimedOut; the processes dict after the cycle does
not depend on the behaviour of the post-processing command (a TimedOut
or NonZeroExit outcome never aborts the loop); and no cycle ever emits
a file deletion, so the recording file is unaffected. -/
theorem post_processing_bounded_nonfatal (users : List String)
    (status : String → LiveResult) (sr : String → Option RecInfo)
    (postCmd : String) (beh beh2 : CmdBehavior) (m : ProcMap) (path : String)
    (h : postProcessTimeout < beh.duration) :
    runPostOutcome beh = .timedOut ∧
    (cycle users status sr postCmd beh m).1 =
      (cycle users status sr postCmd beh2 m).1 ∧
    Action.deleteFile path ∉ (cycle users status sr postCmd beh m).2 := by
  refine ⟨?_, cycle_map_indep _ _ _ _ _ _ _, ?_⟩
  · unfold runPostOutcome
    rw [if_pos h]
  · intro hmem
    simp only [cycle] at hmem
    rcases applyStops_acts_mem _ _ _ _ _ _ hmem with
      h1 | ⟨v, info, hv⟩ | ⟨v, pth, oc, hv⟩
    · rcases applyStarts_acts_mem _ _ _ _ _ h1 with h2 | ⟨v, hv, _, _⟩
      · exact absurd h2 (List.not_mem_nil _)
      · exact absurd hv (by simp)
    · exact absurd hv (by simp)
    · exact absurd hv (by simp)

/-- Witness for C9: a 301-second command against the 300-second
timeout, on a cycle stopping one recording. -/
theorem post_processing_bounded_nonfatal_witness :
    postProcessTimeout < (301 : Nat) ∧
    runPostOutcome ⟨301, 0⟩ = .timedOut ∧
    (cycle ["alice"] (fun _ => .offline) (fun _ => none) "cmd" ⟨301, 0⟩
      [("alice", ⟨"alice", "o.mp4"⟩)]).1 =
      (cycle ["alice"] (fun _ => .offline) (fun _ => none) "cmd" ⟨5, 0⟩
        [("alice", ⟨"alice", "o.mp4"⟩)]).1 ∧
    Action.deleteFile "o.mp4" ∉
      (cycle ["alice"] (fun _ => .offline) (fun _ => none) "cmd" ⟨301, 0⟩
        [("alice", ⟨"alice", "o.mp4"⟩)]).2 := by
  have hth := post_processing_bounded_nonfatal ["alice"] (fun _ => .offline)
    (fun _ => none) "cmd" ⟨301, 0⟩ ⟨5, 0⟩
    [("alice", ⟨"alice", "o.mp4"⟩)] "o.mp4" (by decide)
  exact ⟨by decide, hth.1, hth.2.1, hth.2.2⟩

/-- Claim C10. The effective poll interval is always strictly positive:
a configured value that is zero or negative is replaced by the default
of 60 seconds, and a positive value is kept. -/
theorem check_interval_positive (c : Int) :
    0 < effective_check_interval c ∧
    (c ≤ 0 → effective_check_interval c = 60) ∧
    (0 < c → effective_check_interval c = c) := by
  unfold effective_check_interval DEFAULT_CHECK_INTERVAL
  refine ⟨?_, ?_, ?_⟩
  · split
    · norm_num
    · omega
  · intro h
    rw [if_pos h]
  · intro h
    rw [if_neg (by omega)]

/-- Witness for C10 at a negative configured interval. -/
theorem check_interval_positive_witness :
    0 < effective_check_interval (-5) ∧
    effective_check_interval (-5) = 60 :=
  ⟨(check_interval_positive (-5)).1,
   (check_interval_positive (-5)).2.1 (by decide)⟩

end TwitchRecorder
